import Mathlib

/-!
Verification of the HTTP access-API client façade in
`src/client/http/client.go` (package `http` of the flow-go-sdk).

The façade is embedded shallowly: each `Client` method becomes a pure
Lean function parameterised by
  * a `Handler` record — the injected transport capability
    (the Go `handler` interface, client.go lines 39-49), and
  * a `Convert` record — the external wire/domain conversion functions
    from the `convert` package, which is outside this repository slice
    and is therefore kept abstract except where the design document
    fixes its behaviour.

Go's `(value, error)` returns are modelled as `Except Err`, Go panics
as the `Outcome.crash` constructor, and every façade method also
returns the list of handler invocations it performed, so that claims
of the form "exactly one handler call with these arguments" and "no
handler call on early failure" are directly statable.
-/

/-- Go `error` values: kept abstract as a message-carrying record so that
verbatim propagation is the identity on this type. -/
structure Err where
  msg : String
deriving DecidableEq, Repr

/-- Result of a Go function call, including abnormal termination:
`ok` a normal value, `fail` a returned non-nil error, `crash` a panic
with its message. -/
inductive Outcome (α : Type) where
  | ok : α → Outcome α
  | fail : Err → Outcome α
  | crash : String → Outcome α
deriving DecidableEq, Repr

/-- A Go `(value, error)` pair returned normally, viewed as an `Outcome`. -/
def Outcome.ofExcept {α : Type} : Except Err α → Outcome α
  | .ok a => .ok a
  | .error e => .fail e

/-- Functorial action preserving `fail` and `crash` untouched. -/
def Outcome.map {α β : Type} (f : α → β) : Outcome α → Outcome β
  | .ok a => .ok (f a)
  | .fail e => .fail e
  | .crash m => .crash m

/-- Whether the outcome is a returned (non-nil) error value. -/
def Outcome.isFail {α : Type} : Outcome α → Bool
  | .fail _ => true
  | _ => false

/-- Whether the outcome is a normal success. -/
def Outcome.isOk {α : Type} : Outcome α → Bool
  | .ok _ => true
  | _ => false

/-- The message Go's runtime panics with on `xs[0]` when `len(xs) = 0`. -/
def indexPanicMsg : String := "runtime error: index out of range [0] with length 0"

/-- `context.Context`: opaque, passed through unmodified by the façade. -/
structure Ctx where
  token : Nat
deriving DecidableEq, Repr

/-! ### Wire-model types (`models` package, external; kept as opaque records) -/

structure ModelsBlock where
  raw : Nat
deriving DecidableEq, Repr

structure ModelsAccount where
  raw : Nat
deriving DecidableEq, Repr

structure ModelsCollection where
  raw : Nat
deriving DecidableEq, Repr

structure ModelsTransactionResult where
  raw : Nat
deriving DecidableEq, Repr

/-- `models.Transaction`; its `Result` pointer field (possibly nil) is the
part `GetTransactionResult` extracts. -/
structure ModelsTransaction where
  raw : Nat
  Result : Option ModelsTransactionResult
deriving DecidableEq, Repr

structure ModelsBlockEvents where
  raw : Nat
deriving DecidableEq, Repr

/-! ### Domain types (`flow` package, external; only the structure the
façade touches is modelled: a block carries a header) -/

structure FlowBlockHeader where
  hdr : Nat
deriving DecidableEq, Repr

structure FlowBlock where
  BlockHeader : FlowBlockHeader
  payload : Nat
deriving DecidableEq, Repr

structure FlowAccount where
  raw : Nat
deriving DecidableEq, Repr

structure FlowCollection where
  raw : Nat
deriving DecidableEq, Repr

structure FlowTransaction where
  raw : Nat
deriving DecidableEq, Repr

structure FlowTransactionResult where
  raw : Nat
deriving DecidableEq, Repr

structure FlowBlockEvents where
  raw : Nat
deriving DecidableEq, Repr

structure FlowExecutionResult where
  raw : Nat
deriving DecidableEq, Repr

structure CadenceValue where
  raw : Nat
deriving DecidableEq, Repr

/-- `flow.Identifier`: opaque identity with its Go `String()` encoding. -/
structure Identifier where
  toStr : String
deriving DecidableEq, Repr

/-- `flow.Address`: opaque address with its Go `String()` encoding. -/
structure Address where
  toStr : String
deriving DecidableEq, Repr

/-! ### Handler capability and call trace -/

/-- One recorded invocation of a handler operation, with the argument
values the façade passed (the pass-through context omitted, as no claim
concerns it). -/
inductive HandlerCall where
  | getBlockByID (id : String)
  | getBlockByHeight (height : String)
  | getAccount (address : String) (height : String)
  | getCollection (id : String)
  | executeScriptAtBlockHeight (height : String) (script : String) (args : List String)
  | executeScriptAtBlockID (id : String) (script : String) (args : List String)
  | getTransaction (id : String) (includeResult : Bool)
  | sendTransaction (tx : List Nat)
  | getEvents (eventType : String) (start : String) (stop : String) (blockIDs : List String)
deriving DecidableEq, Repr

/-- The Go `handler` interface (client.go lines 39-49): the injected
transport. Each operation takes primitive string-encoded arguments and
returns a wire record or an error. -/
structure Handler where
  getBlockByID : Ctx → String → Except Err ModelsBlock
  getBlockByHeight : Ctx → String → Except Err (List ModelsBlock)
  getAccount : Ctx → String → String → Except Err ModelsAccount
  getCollection : Ctx → String → Except Err ModelsCollection
  executeScriptAtBlockHeight : Ctx → String → String → List String → Except Err String
  executeScriptAtBlockID : Ctx → String → String → List String → Except Err String
  getTransaction : Ctx → String → Bool → Except Err ModelsTransaction
  sendTransaction : Ctx → List Nat → Except Err Unit
  getEvents : Ctx → String → String → String → List String → Except Err (List ModelsBlockEvents)

/-- The conversion functions of the external `convert` package that the
façade calls, kept abstract (pre-existing pure functions per the design
document); the fallible ones return `(value, error)`. -/
structure Convert where
  HTTPToBlock : ModelsBlock → Except Err FlowBlock
  HTTPToCollection : ModelsCollection → FlowCollection
  TransactionToHTTP : FlowTransaction → Except Err (List Nat)
  HTTPToTransaction : ModelsTransaction → Except Err FlowTransaction
  HTTPToTransactionResult : Option ModelsTransactionResult → Except Err FlowTransactionResult
  HTTPToAccount : ModelsAccount → Except Err FlowAccount
  CadenceArgsToHTTP : List CadenceValue → Except Err (List String)
  ScriptToHTTP : List Nat → String
  HTTPToCadenceValue : String → Except Err CadenceValue
  HTTPToBlockEvents : List ModelsBlockEvents → Except Err (List FlowBlockEvents)

/-- Modelled from the spec: `convert.SealedToHTTP`, the
boolean-to-height-sentinel mapper of the external `convert` package
(not under the repository slice); the design document fixes it as
`true` to "sealed" and `false` to "finalized". -/
def SealedToHTTP (isSealed : Bool) : String :=
  if isSealed then "sealed" else "finalized"

/-- `SEALED_HEIGHT` constant (client.go line 33). -/
def SEALED_HEIGHT : String := "sealed"

/-! ### The Client façade (client.go lines 101-321)

Each method returns its Go result as an `Outcome` together with the
list of handler operations it invoked, in order. -/

/-- `Client.Ping` (client.go lines 101-103): `panic("implement me")`. -/
def Client.Ping (_cv : Convert) (_h : Handler) (_ctx : Ctx) :
    Outcome Unit × List HandlerCall :=
  (.crash "implement me", [])

/-- `Client.GetBlockByID` (client.go lines 105-112). -/
def Client.GetBlockByID (cv : Convert) (h : Handler) (ctx : Ctx)
    (blockID : Identifier) : Outcome FlowBlock × List HandlerCall :=
  match h.getBlockByID ctx blockID.toStr with
  | .error e => (.fail e, [.getBlockByID blockID.toStr])
  | .ok block => (.ofExcept (cv.HTTPToBlock block), [.getBlockByID blockID.toStr])

/-- `Client.GetLatestBlock` (client.go lines 141-148): queries by height
with the sealed/finalized sentinel and takes `blocks[0]` without an
emptiness guard, which panics on an empty slice. -/
def Client.GetLatestBlock (cv : Convert) (h : Handler) (ctx : Ctx)
    (isSealed : Bool) : Outcome FlowBlock × List HandlerCall :=
  match h.getBlockByHeight ctx (SealedToHTTP isSealed) with
  | .error e => (.fail e, [.getBlockByHeight (SealedToHTTP isSealed)])
  | .ok blocks =>
    match blocks with
    | [] => (.crash indexPanicMsg, [.getBlockByHeight (SealedToHTTP isSealed)])
    | b :: _ => (.ofExcept (cv.HTTPToBlock b), [.getBlockByHeight (SealedToHTTP isSealed)])

/-- `Client.GetBlockByHeight` (client.go lines 150-157): same shape as
`GetLatestBlock` but with the decimal height string; also takes
`blocks[0]` unguarded. -/
def Client.GetBlockByHeight (cv : Convert) (h : Handler) (ctx : Ctx)
    (height : Nat) : Outcome FlowBlock × List HandlerCall :=
  match h.getBlockByHeight ctx (toString height) with
  | .error e => (.fail e, [.getBlockByHeight (toString height)])
  | .ok blocks =>
    match blocks with
    | [] => (.crash indexPanicMsg, [.getBlockByHeight (toString height)])
    | b :: _ => (.ofExcept (cv.HTTPToBlock b), [.getBlockByHeight (toString height)])

/-- `Client.GetLatestBlockHeader` (client.go lines 114-121): delegates to
`GetLatestBlock` and projects the header. -/
def Client.GetLatestBlockHeader (cv : Convert) (h : Handler) (ctx : Ctx)
    (isSealed : Bool) : Outcome FlowBlockHeader × List HandlerCall :=
  match Client.GetLatestBlock cv h ctx isSealed with
  | (.ok block, t) => (.ok block.BlockHeader, t)
  | (.fail e, t) => (.fail e, t)
  | (.crash m, t) => (.crash m, t)

/-- `Client.GetBlockHeaderByID` (client.go lines 123-130). -/
def Client.GetBlockHeaderByID (cv : Convert) (h : Handler) (ctx : Ctx)
    (blockID : Identifier) : Outcome FlowBlockHeader × List HandlerCall :=
  match Client.GetBlockByID cv h ctx blockID with
  | (.ok block, t) => (.ok block.BlockHeader, t)
  | (.fail e, t) => (.fail e, t)
  | (.crash m, t) => (.crash m, t)

/-- `Client.GetBlockHeaderByHeight` (client.go lines 132-139). -/
def Client.GetBlockHeaderByHeight (cv : Convert) (h : Handler) (ctx : Ctx)
    (height : Nat) : Outcome FlowBlockHeader × List HandlerCall :=
  match Client.GetBlockByHeight cv h ctx height with
  | (.ok block, t) => (.ok block.BlockHeader, t)
  | (.fail e, t) => (.fail e, t)
  | (.crash m, t) => (.crash m, t)

/-- `Client.GetCollection` (client.go lines 159-166); the collection
conversion is infallible in the source. -/
def Client.GetCollection (cv : Convert) (h : Handler) (ctx : Ctx)
    (ID : Identifier) : Outcome FlowCollection × List HandlerCall :=
  match h.getCollection ctx ID.toStr with
  | .error e => (.fail e, [.getCollection ID.toStr])
  | .ok collection => (.ok (cv.HTTPToCollection collection), [.getCollection ID.toStr])

/-- `Client.SendTransaction` (client.go lines 168-175): encodes the
transaction first; on encoding failure returns that error with no
handler call; otherwise returns the handler's error result directly. -/
def Client.SendTransaction (cv : Convert) (h : Handler) (ctx : Ctx)
    (tx : FlowTransaction) : Outcome Unit × List HandlerCall :=
  match cv.TransactionToHTTP tx with
  | .error e => (.fail e, [])
  | .ok convertedTx =>
    match h.sendTransaction ctx convertedTx with
    | .error e => (.fail e, [.sendTransaction convertedTx])
    | .ok _ => (.ok (), [.sendTransaction convertedTx])

/-- `Client.GetTransaction` (client.go lines 177-184): include-result
flag `false`, converts the transaction itself. -/
def Client.GetTransaction (cv : Convert) (h : Handler) (ctx : Ctx)
    (ID : Identifier) : Outcome FlowTransaction × List HandlerCall :=
  match h.getTransaction ctx ID.toStr false with
  | .error e => (.fail e, [.getTransaction ID.toStr false])
  | .ok tx => (.ofExcept (cv.HTTPToTransaction tx), [.getTransaction ID.toStr false])

/-- `Client.GetTransactionResult` (client.go lines 186-193):
include-result flag `true`, converts the `Result` field. -/
def Client.GetTransactionResult (cv : Convert) (h : Handler) (ctx : Ctx)
    (ID : Identifier) : Outcome FlowTransactionResult × List HandlerCall :=
  match h.getTransaction ctx ID.toStr true with
  | .error e => (.fail e, [.getTransaction ID.toStr true])
  | .ok tx => (.ofExcept (cv.HTTPToTransactionResult tx.Result), [.getTransaction ID.toStr true])

/-- `Client.GetAccount` (client.go lines 195-202): address string plus
the `SEALED_HEIGHT` sentinel. -/
def Client.GetAccount (cv : Convert) (h : Handler) (ctx : Ctx)
    (address : Address) : Outcome FlowAccount × List HandlerCall :=
  match h.getAccount ctx address.toStr SEALED_HEIGHT with
  | .error e => (.fail e, [.getAccount address.toStr SEALED_HEIGHT])
  | .ok account => (.ofExcept (cv.HTTPToAccount account), [.getAccount address.toStr SEALED_HEIGHT])

/-- `Client.GetAccountAtLatestBlock` (client.go lines 204-206): a direct
delegation to `GetAccount`. -/
def Client.GetAccountAtLatestBlock (cv : Convert) (h : Handler) (ctx : Ctx)
    (address : Address) : Outcome FlowAccount × List HandlerCall :=
  Client.GetAccount cv h ctx address

/-- `Client.GetAccountAtBlockHeight` (client.go lines 208-219): address
string plus the decimal height string. -/
def Client.GetAccountAtBlockHeight (cv : Convert) (h : Handler) (ctx : Ctx)
    (address : Address) (blockHeight : Nat) : Outcome FlowAccount × List HandlerCall :=
  match h.getAccount ctx address.toStr (toString blockHeight) with
  | .error e => (.fail e, [.getAccount address.toStr (toString blockHeight)])
  | .ok account => (.ofExcept (cv.HTTPToAccount account), [.getAccount address.toStr (toString blockHeight)])

/-- `Client.ExecuteScriptAtLatestBlock` (client.go lines 221-237):
encodes the argument list first; on failure no handler call is made. -/
def Client.ExecuteScriptAtLatestBlock (cv : Convert) (h : Handler) (ctx : Ctx)
    (script : List Nat) (arguments : List CadenceValue) :
    Outcome CadenceValue × List HandlerCall :=
  match cv.CadenceArgsToHTTP arguments with
  | .error e => (.fail e, [])
  | .ok args =>
    match h.executeScriptAtBlockHeight ctx SEALED_HEIGHT (cv.ScriptToHTTP script) args with
    | .error e => (.fail e, [.executeScriptAtBlockHeight SEALED_HEIGHT (cv.ScriptToHTTP script) args])
    | .ok result => (.ofExcept (cv.HTTPToCadenceValue result),
        [.executeScriptAtBlockHeight SEALED_HEIGHT (cv.ScriptToHTTP script) args])

/-- `Client.ExecuteScriptAtBlockID` (client.go lines 239-256). -/
def Client.ExecuteScriptAtBlockID (cv : Convert) (h : Handler) (ctx : Ctx)
    (blockID : Identifier) (script : List Nat) (arguments : List CadenceValue) :
    Outcome CadenceValue × List HandlerCall :=
  match cv.CadenceArgsToHTTP arguments with
  | .error e => (.fail e, [])
  | .ok args =>
    match h.executeScriptAtBlockID ctx blockID.toStr (cv.ScriptToHTTP script) args with
    | .error e => (.fail e, [.executeScriptAtBlockID blockID.toStr (cv.ScriptToHTTP script) args])
    | .ok result => (.ofExcept (cv.HTTPToCadenceValue result),
        [.executeScriptAtBlockID blockID.toStr (cv.ScriptToHTTP script) args])

/-- `Client.ExecuteScriptAtBlockHeight` (client.go lines 258-275). -/
def Client.ExecuteScriptAtBlockHeight (cv : Convert) (h : Handler) (ctx : Ctx)
    (height : Nat) (script : List Nat) (arguments : List CadenceValue) :
    Outcome CadenceValue × List HandlerCall :=
  match cv.CadenceArgsToHTTP arguments with
  | .error e => (.fail e, [])
  | .ok args =>
    match h.executeScriptAtBlockHeight ctx (toString height) (cv.ScriptToHTTP script) args with
    | .error e => (.fail e, [.executeScriptAtBlockHeight (toString height) (cv.ScriptToHTTP script) args])
    | .ok result => (.ofExcept (cv.HTTPToCadenceValue result),
        [.executeScriptAtBlockHeight (toString height) (cv.ScriptToHTTP script) args])

/-- `Client.GetEventsForHeightRange` (client.go lines 277-295): decimal
height bounds, `nil` block-identifier set. -/
def Client.GetEventsForHeightRange (cv : Convert) (h : Handler) (ctx : Ctx)
    (eventType : String) (startHeight endHeight : Nat) :
    Outcome (List FlowBlockEvents) × List HandlerCall :=
  match h.getEvents ctx eventType (toString startHeight) (toString endHeight) [] with
  | .error e => (.fail e, [.getEvents eventType (toString startHeight) (toString endHeight) []])
  | .ok events => (.ofExcept (cv.HTTPToBlockEvents events),
      [.getEvents eventType (toString startHeight) (toString endHeight) []])

/-- `Client.GetEventsForBlockIDs` (client.go lines 297-313): stringifies
every identifier, empty height bounds. -/
def Client.GetEventsForBlockIDs (cv : Convert) (h : Handler) (ctx : Ctx)
    (eventType : String) (blockIDs : List Identifier) :
    Outcome (List FlowBlockEvents) × List HandlerCall :=
  match h.getEvents ctx eventType "" "" (blockIDs.map Identifier.toStr) with
  | .error e => (.fail e, [.getEvents eventType "" "" (blockIDs.map Identifier.toStr)])
  | .ok events => (.ofExcept (cv.HTTPToBlockEvents events),
      [.getEvents eventType "" "" (blockIDs.map Identifier.toStr)])

/-- `Client.GetLatestProtocolStateSnapshot` (client.go lines 315-317):
`panic("implement me")`. -/
def Client.GetLatestProtocolStateSnapshot (_cv : Convert) (_h : Handler)
    (_ctx : Ctx) : Outcome (List Nat) × List HandlerCall :=
  (.crash "implement me", [])

/-- `Client.GetExecutionResultForBlockID` (client.go lines 319-321):
`panic("implement me")`. -/
def Client.GetExecutionResultForBlockID (_cv : Convert) (_h : Handler)
    (_ctx : Ctx) (_blockID : Identifier) :
    Outcome FlowExecutionResult × List HandlerCall :=
  (.crash "implement me", [])

/-- A `getEvents` call combines the two filter modes when it carries a
nonempty height bound and a nonempty identifier set at once. -/
def combinedModes : HandlerCall → Bool
  | .getEvents _ s e ids => (!s.isEmpty || !e.isEmpty) && !ids.isEmpty
  | _ => false

/-! ### Concrete instances for closed evaluations -/

/-- A fixed execution context. -/
def ctx0 : Ctx := ⟨0⟩

/-- A concrete, fully defined conversion suite. -/
def cv0 : Convert where
  HTTPToBlock := fun b => .ok ⟨⟨b.raw⟩, b.raw⟩
  HTTPToCollection := fun c => ⟨c.raw⟩
  TransactionToHTTP := fun t => .ok [t.raw]
  HTTPToTransaction := fun t => .ok ⟨t.raw⟩
  HTTPToTransactionResult := fun r =>
    match r with
    | some x => .ok ⟨x.raw⟩
    | none => .error ⟨"nil result"⟩
  HTTPToAccount := fun a => .ok ⟨a.raw⟩
  CadenceArgsToHTTP := fun vs => .ok (vs.map (fun v => toString v.raw))
  ScriptToHTTP := fun bytes => toString bytes
  HTTPToCadenceValue := fun s => .ok ⟨s.length⟩
  HTTPToBlockEvents := fun es => .ok (es.map (fun e => ⟨e.raw⟩))

/-- A handler whose by-height query succeeds with an empty block
sequence and whose other operations all fail. -/
def handlerEmpty : Handler where
  getBlockByID := fun _ _ => .error ⟨"unreached"⟩
  getBlockByHeight := fun _ _ => .ok []
  getAccount := fun _ _ _ => .error ⟨"unreached"⟩
  getCollection := fun _ _ => .error ⟨"unreached"⟩
  executeScriptAtBlockHeight := fun _ _ _ _ => .error ⟨"unreached"⟩
  executeScriptAtBlockID := fun _ _ _ _ => .error ⟨"unreached"⟩
  getTransaction := fun _ _ _ => .error ⟨"unreached"⟩
  sendTransaction := fun _ _ => .error ⟨"unreached"⟩
  getEvents := fun _ _ _ _ _ => .error ⟨"unreached"⟩

/-! ### Claim theorems -/

/-- C1: when the handler answers a by-height query successfully with an
empty block sequence, the façade as written does NOT fail with a
not-found error: both `GetLatestBlock` and `GetBlockByHeight` index the
first element of the empty sequence and fault with Go's out-of-bounds
panic, returning no error value at all. This evaluates the code at the
failing input and exhibits the divergence from the claimed behaviour. -/
theorem c1_by_height_empty_result_faults :
    (Client.GetLatestBlock cv0 handlerEmpty ctx0 true).1 = Outcome.crash indexPanicMsg ∧
    (Client.GetLatestBlock cv0 handlerEmpty ctx0 false).1 = Outcome.crash indexPanicMsg ∧
    (Client.GetBlockByHeight cv0 handlerEmpty ctx0 7).1 = Outcome.crash indexPanicMsg ∧
    (Client.GetLatestBlock cv0 handlerEmpty ctx0 true).1.isFail = false ∧
    (Client.GetBlockByHeight cv0 handlerEmpty ctx0 7).1.isFail = false :=
  ⟨rfl, rfl, rfl, rfl, rfl⟩

/-- C2 counterexample: at a concrete input, `Ping` (and the other two
unimplemented operations) does not return a failure value to the caller
at all — it faults with the `implement me` panic — so the claim that it
"returns an explicit not-implemented failure value ... does not crash"
is false on the code. -/
theorem c2_counterexample :
    (Client.Ping cv0 handlerEmpty ctx0).1.isFail = false ∧
    (Client.Ping cv0 handlerEmpty ctx0).1 = Outcome.crash "implement me" ∧
    (Client.GetLatestProtocolStateSnapshot cv0 handlerEmpty ctx0).1.isFail = false ∧
    (Client.GetExecutionResultForBlockID cv0 handlerEmpty ctx0 ⟨"id"⟩).1.isFail = false :=
  ⟨rfl, rfl, rfl, rfl⟩

/-- C2 (amended): calling any of `Ping`,
`GetLatestProtocolStateSnapshot`, or `GetExecutionResultForBlockID`
deterministically faults with the explicit `implement me`
not-implemented panic, making no handler call; none of them returns a
silent default value or a normal result. -/
theorem c2_not_implemented_is_explicit_panic :
    ∀ (cv : Convert) (h : Handler) (ctx : Ctx) (blockID : Identifier),
      Client.Ping cv h ctx = (Outcome.crash "implement me", []) ∧
      Client.GetLatestProtocolStateSnapshot cv h ctx = (Outcome.crash "implement me", []) ∧
      Client.GetExecutionResultForBlockID cv h ctx blockID = (Outcome.crash "implement me", []) :=
  fun _ _ _ _ => ⟨rfl, rfl, rfl⟩

/-- C3: each of the three script-execution methods encodes the argument
list before any handler interaction: when the encoding fails, the trace
of handler calls is empty and the conversion error is returned; when it
succeeds, exactly one handler call is made, carrying the encoded
arguments, and the handler outcome (or the conversion of its result) is
returned. -/
theorem c3_execute_script_encodes_args_before_call :
    ∀ (cv : Convert) (h : Handler) (ctx : Ctx) (height : Nat) (blockID : Identifier)
      (script : List Nat) (arguments : List CadenceValue),
      (Client.ExecuteScriptAtBlockHeight cv h ctx height script arguments =
        match cv.CadenceArgsToHTTP arguments with
        | .error e => (Outcome.fail e, [])
        | .ok args =>
          (match h.executeScriptAtBlockHeight ctx (toString height) (cv.ScriptToHTTP script) args with
            | .error e => Outcome.fail e
            | .ok r => Outcome.ofExcept (cv.HTTPToCadenceValue r),
          [HandlerCall.executeScriptAtBlockHeight (toString height) (cv.ScriptToHTTP script) args])) ∧
      (Client.ExecuteScriptAtLatestBlock cv h ctx script arguments =
        match cv.CadenceArgsToHTTP arguments with
        | .error e => (Outcome.fail e, [])
        | .ok args =>
          (match h.executeScriptAtBlockHeight ctx SEALED_HEIGHT (cv.ScriptToHTTP script) args with
            | .error e => Outcome.fail e
            | .ok r => Outcome.ofExcept (cv.HTTPToCadenceValue r),
          [HandlerCall.executeScriptAtBlockHeight SEALED_HEIGHT (cv.ScriptToHTTP script) args])) ∧
      (Client.ExecuteScriptAtBlockID cv h ctx blockID script arguments =
        match cv.CadenceArgsToHTTP arguments with
        | .error e => (Outcome.fail e, [])
        | .ok args =>
          (match h.executeScriptAtBlockID ctx blockID.toStr (cv.ScriptToHTTP script) args with
            | .error e => Outcome.fail e
            | .ok r => Outcome.ofExcept (cv.HTTPToCadenceValue r),
          [HandlerCall.executeScriptAtBlockID blockID.toStr (cv.ScriptToHTTP script) args])) := by
  intro cv h ctx height blockID script arguments
  refine ⟨?_, ?_, ?_⟩
  · cases hA : cv.CadenceArgsToHTTP arguments with
    | error e => simp [Client.ExecuteScriptAtBlockHeight, hA]
    | ok args =>
      cases hB : h.executeScriptAtBlockHeight ctx (toString height) (cv.ScriptToHTTP script) args <;>
        simp [Client.ExecuteScriptAtBlockHeight, hA, hB]
  · cases hA : cv.CadenceArgsToHTTP arguments with
    | error e => simp [Client.ExecuteScriptAtLatestBlock, hA]
    | ok args =>
      cases hB : h.executeScriptAtBlockHeight ctx SEALED_HEIGHT (cv.ScriptToHTTP script) args <;>
        simp [Client.ExecuteScriptAtLatestBlock, hA, hB]
  · cases hA : cv.CadenceArgsToHTTP arguments with
    | error e => simp [Client.ExecuteScriptAtBlockID, hA]
    | ok args =>
      cases hB : h.executeScriptAtBlockID ctx blockID.toStr (cv.ScriptToHTTP script) args <;>
        simp [Client.ExecuteScriptAtBlockID, hA, hB]

/-- C4: for either value of `isSealed`, `GetLatestBlock` makes exactly
one handler by-height call carrying the sentinel string — "sealed" for
`true`, "finalized" for `false` — and its outcome is the handler's
error verbatim, the out-of-bounds fault on an empty sequence, or, on a
nonempty success, the conversion of the first element of the handler's
result sequence. -/
theorem c4_latest_block_sentinel_and_first_element :
    ∀ (cv : Convert) (h : Handler) (ctx : Ctx) (isSealed : Bool),
      SealedToHTTP true = "sealed" ∧
      SealedToHTTP false = "finalized" ∧
      (Client.GetLatestBlock cv h ctx isSealed).2 =
        [HandlerCall.getBlockByHeight (SealedToHTTP isSealed)] ∧
      (Client.GetLatestBlock cv h ctx isSealed).1 =
        match h.getBlockByHeight ctx (SealedToHTTP isSealed) with
        | .error e => Outcome.fail e
        | .ok [] => Outcome.crash indexPanicMsg
        | .ok (b :: _) => Outcome.ofExcept (cv.HTTPToBlock b) := by
  intro cv h ctx isSealed
  refine ⟨rfl, rfl, ?_, ?_⟩ <;>
  · cases hB : h.getBlockByHeight ctx (SealedToHTTP isSealed) with
    | error e => simp [Client.GetLatestBlock, hB]
    | ok blocks => cases blocks <;> simp [Client.GetLatestBlock, hB]

/-- C5: `GetEventsForHeightRange` makes one handler call carrying the
event type, the decimal strings of the two heights, and an empty
identifier set; `GetEventsForBlockIDs` makes one handler call carrying
the event type, empty height bounds, and the string encodings of the
identifiers; every call either method ever makes keeps the two filter
modes (height bounds, identifier set) uncombined. -/
theorem c5_event_filter_modes_never_combined :
    ∀ (cv : Convert) (h : Handler) (ctx : Ctx) (eventType : String)
      (startHeight endHeight : Nat) (blockIDs : List Identifier),
      (Client.GetEventsForHeightRange cv h ctx eventType startHeight endHeight).2 =
        [HandlerCall.getEvents eventType (toString startHeight) (toString endHeight) []] ∧
      (Client.GetEventsForBlockIDs cv h ctx eventType blockIDs).2 =
        [HandlerCall.getEvents eventType "" "" (blockIDs.map Identifier.toStr)] ∧
      ((Client.GetEventsForHeightRange cv h ctx eventType startHeight endHeight).2.all
        (fun c => !combinedModes c)) = true ∧
      ((Client.GetEventsForBlockIDs cv h ctx eventType blockIDs).2.all
        (fun c => !combinedModes c)) = true := by
  intro cv h ctx eventType startHeight endHeight blockIDs
  refine ⟨?_, ?_, ?_, ?_⟩
  · cases hB : h.getEvents ctx eventType (toString startHeight) (toString endHeight) [] <;>
      simp [Client.GetEventsForHeightRange, hB, combinedModes]
  · cases hB : h.getEvents ctx eventType "" "" (blockIDs.map Identifier.toStr) <;>
      simp [Client.GetEventsForBlockIDs, hB, combinedModes]
  · cases hB : h.getEvents ctx eventType (toString startHeight) (toString endHeight) [] <;>
      simp [Client.GetEventsForHeightRange, hB, combinedModes]
  · cases hB : h.getEvents ctx eventType "" "" (blockIDs.map Identifier.toStr) <;>
    · simp [Client.GetEventsForBlockIDs, hB, combinedModes]
      exact Or.inl (by decide)

/-- C6: `SendTransaction` encodes the transaction first; if encoding
fails the conversion error is returned and no handler call is made;
otherwise the handler's submit operation is invoked exactly once with
the encoded bytes, and the method returns success exactly when the
handler does and the handler's error verbatim otherwise — no response
payload is converted. -/
theorem c6_send_transaction_single_submit :
    ∀ (cv : Convert) (h : Handler) (ctx : Ctx) (tx : FlowTransaction),
      Client.SendTransaction cv h ctx tx =
        match cv.TransactionToHTTP tx with
        | .error e => (Outcome.fail e, [])
        | .ok bytes =>
          (match h.sendTransaction ctx bytes with
            | .error e => Outcome.fail e
            | .ok _ => Outcome.ok (),
          [HandlerCall.sendTransaction bytes]) := by
  intro cv h ctx tx
  cases hA : cv.TransactionToHTTP tx with
  | error e => simp [Client.SendTransaction, hA]
  | ok bytes =>
    cases hB : h.sendTransaction ctx bytes <;> simp [Client.SendTransaction, hA, hB]

/-- C7: `GetTransaction` and `GetTransactionResult` each make the same
single identifier-keyed handler call, differing only in the
include-result flag (`false` versus `true`) and in which part of the
response is converted: the transaction itself versus its `Result`
field. -/
theorem c7_transaction_methods_differ_only_in_flag :
    ∀ (cv : Convert) (h : Handler) (ctx : Ctx) (ID : Identifier),
      (Client.GetTransaction cv h ctx ID).2 = [HandlerCall.getTransaction ID.toStr false] ∧
      (Client.GetTransactionResult cv h ctx ID).2 = [HandlerCall.getTransaction ID.toStr true] ∧
      (Client.GetTransaction cv h ctx ID).1 =
        (match h.getTransaction ctx ID.toStr false with
          | .error e => Outcome.fail e
          | .ok tx => Outcome.ofExcept (cv.HTTPToTransaction tx)) ∧
      (Client.GetTransactionResult cv h ctx ID).1 =
        (match h.getTransaction ctx ID.toStr true with
          | .error e => Outcome.fail e
          | .ok tx => Outcome.ofExcept (cv.HTTPToTransactionResult tx.Result)) := by
  intro cv h ctx ID
  refine ⟨?_, ?_, ?_, ?_⟩
  · cases hB : h.getTransaction ctx ID.toStr false <;>
      simp [Client.GetTransaction, hB]
  · cases hB : h.getTransaction ctx ID.toStr true <;>
      simp [Client.GetTransactionResult, hB]
  · cases hB : h.getTransaction ctx ID.toStr false <;>
      simp [Client.GetTransaction, hB]
  · cases hB : h.getTransaction ctx ID.toStr true <;>
      simp [Client.GetTransactionResult, hB]

/-- C8: `GetBlockByID` issues exactly one handler call carrying the
identifier's string encoding; a handler error is propagated verbatim as
the method's result, and a handler success is returned through the
block conversion. -/
theorem c8_get_block_by_id_single_call :
    ∀ (cv : Convert) (h : Handler) (ctx : Ctx) (blockID : Identifier),
      (Client.GetBlockByID cv h ctx blockID).2 = [HandlerCall.getBlockByID blockID.toStr] ∧
      (Client.GetBlockByID cv h ctx blockID).1 =
        match h.getBlockByID ctx blockID.toStr with
        | .error e => Outcome.fail e
        | .ok b => Outcome.ofExcept (cv.HTTPToBlock b) := by
  intro cv h ctx blockID
  refine ⟨?_, ?_⟩ <;>
  · cases hB : h.getBlockByID ctx blockID.toStr <;> simp [Client.GetBlockByID, hB]

/-- C9: `GetAccount` calls the handler's account operation with the
address's string encoding and the "sealed" height sentinel,
`GetAccountAtBlockHeight` with the address's string encoding and the
decimal string of the height; in both cases a successful wire account
is converted to the domain account and a handler error is returned
verbatim. -/
theorem c9_account_height_resolution :
    ∀ (cv : Convert) (h : Handler) (ctx : Ctx) (address : Address) (blockHeight : Nat),
      SEALED_HEIGHT = "sealed" ∧
      Client.GetAccount cv h ctx address =
        (match h.getAccount ctx address.toStr SEALED_HEIGHT with
          | .error e => Outcome.fail e
          | .ok a => Outcome.ofExcept (cv.HTTPToAccount a),
        [HandlerCall.getAccount address.toStr SEALED_HEIGHT]) ∧
      Client.GetAccountAtBlockHeight cv h ctx address blockHeight =
        (match h.getAccount ctx address.toStr (toString blockHeight) with
          | .error e => Outcome.fail e
          | .ok a => Outcome.ofExcept (cv.HTTPToAccount a),
        [HandlerCall.getAccount address.toStr (toString blockHeight)]) := by
  intro cv h ctx address blockHeight
  refine ⟨rfl, ?_, ?_⟩
  · cases hB : h.getAccount ctx address.toStr SEALED_HEIGHT <;>
      simp [Client.GetAccount, hB]
  · cases hB : h.getAccount ctx address.toStr (toString blockHeight) <;>
      simp [Client.GetAccountAtBlockHeight, hB]

/-- C10: each header method is the corresponding full-block method with
the header field projected from a successful block — identical handler
trace, identical error (and identical fault) otherwise — and
`GetAccountAtLatestBlock` coincides exactly with `GetAccount`. -/
theorem c10_header_methods_refine_block_methods :
    ∀ (cv : Convert) (h : Handler) (ctx : Ctx) (isSealed : Bool)
      (blockID : Identifier) (height : Nat) (address : Address),
      Client.GetLatestBlockHeader cv h ctx isSealed =
        ((Client.GetLatestBlock cv h ctx isSealed).1.map FlowBlock.BlockHeader,
          (Client.GetLatestBlock cv h ctx isSealed).2) ∧
      Client.GetBlockHeaderByID cv h ctx blockID =
        ((Client.GetBlockByID cv h ctx blockID).1.map FlowBlock.BlockHeader,
          (Client.GetBlockByID cv h ctx blockID).2) ∧
      Client.GetBlockHeaderByHeight cv h ctx height =
        ((Client.GetBlockByHeight cv h ctx height).1.map FlowBlock.BlockHeader,
          (Client.GetBlockByHeight cv h ctx height).2) ∧
      Client.GetAccountAtLatestBlock cv h ctx address = Client.GetAccount cv h ctx address := by
  intro cv h ctx isSealed blockID height address
  refine ⟨?_, ?_, ?_, rfl⟩
  · rcases hB : Client.GetLatestBlock cv h ctx isSealed with ⟨o, t⟩
    cases o <;> simp [Client.GetLatestBlockHeader, hB, Outcome.map]
  · rcases hB : Client.GetBlockByID cv h ctx blockID with ⟨o, t⟩
    cases o <;> simp [Client.GetBlockHeaderByID, hB, Outcome.map]
  · rcases hB : Client.GetBlockByHeight cv h ctx height with ⟨o, t⟩
    cases o <;> simp [Client.GetBlockHeaderByHeight, hB, Outcome.map]
